import Mathlib

/-!
Shallow embedding of `src/server.js`: an in-memory cryptocurrency price
cache that is refreshed from two upstream adapters (a CoinGecko batch
endpoint and a DexScreener single-pair endpoint) plus a fixed-price
provider for stablecoins, and served over HTTP read endpoints.

Network calls are modelled by passing each adapter's (already JSON-parsed)
upstream response as an explicit argument; wall-clock reads (`Date.now()`)
are modelled by explicit timestamp arguments.  JavaScript objects used as
string-keyed maps are modelled as insertion-ordered association lists, and
JavaScript numbers as `JsNum` (NaN or a rational).
-/

/-- A JavaScript number as produced by the price pipeline: either NaN
(e.g. `parseFloat` of a non-numeric string) or an actual rational value. -/
inductive JsNum where
  | nan : JsNum
  | num (q : Rat) : JsNum
deriving DecidableEq, Repr

/-- One asset's price record, the object literal built by the providers in
`server.js` (fields `price`, `change24h`, `source`, `updatedAt`). -/
structure PriceRecord where
  price : JsNum
  change24h : JsNum
  source : String
  updatedAt : Nat
deriving DecidableEq, Repr

/-- A JS object mapping token symbol to `PriceRecord`, kept as an
insertion-ordered association list (JS objects preserve insertion order). -/
abbrev Snapshot := List (String × PriceRecord)

/-- JS property write `obj[k] = v`: overwrite the value in place when the
key exists, otherwise append the new key at the end. -/
def objSet {α : Type} : List (String × α) → String → α → List (String × α)
  | [], k, v => [(k, v)]
  | (k1, v1) :: rest, k, v =>
    if k1 = k then (k, v) :: rest else (k1, v1) :: objSet rest k v

/-- JS `Object.assign(target, src)`: copy every own property of `src`
onto `target`, in `src`'s key order. -/
def objAssign {α : Type} (target src : List (String × α)) : List (String × α) :=
  src.foldl (fun acc p => objSet acc p.1 p.2) target

/-- The longest prefix of decimal digits of a character list, as digit
values, together with the rest of the list. -/
def takeDigits : List Char → List Nat × List Char
  | [] => ([], [])
  | c :: rest =>
    if 48 ≤ c.toNat ∧ c.toNat ≤ 57 then
      let r := takeDigits rest
      ((c.toNat - 48) :: r.1, r.2)
    else ([], c :: rest)

/-- Value of a digit list read as an integer part. -/
def natOfDigits (ds : List Nat) : Nat :=
  ds.foldl (fun a d => 10 * a + d) 0

/-- Value of a digit list read as a fractional part (first digit is
tenths, and so on). -/
def fracOfDigits (ds : List Nat) : Rat :=
  ds.foldr (fun d a => ((d : Rat) + a) / 10) 0

/-- Models JavaScript's `parseFloat` on plain decimal notation (leading
spaces, optional sign, digits, optional `.` and fraction digits; trailing
garbage ignored): parses the longest numeric prefix and yields NaN when no
digit is found.  Exponent notation is not modelled; the strings this
program parses (DexScreener `priceUsd` / `priceChange.h24`) are plain
decimals. -/
def parseFloat (s : String) : JsNum :=
  let cs := s.data.dropWhile (fun c => c = ' ')
  let signAndRest : Rat × List Char :=
    match cs with
    | '-' :: r => (-1, r)
    | '+' :: r => (1, r)
    | _ => (1, cs)
  let ip := takeDigits signAndRest.2
  let fp : List Nat :=
    match ip.2 with
    | '.' :: r => (takeDigits r).1
    | _ => []
  if ip.1.isEmpty ∧ fp.isEmpty then JsNum.nan
  else JsNum.num (signAndRest.1 * ((natOfDigits ip.1 : Rat) + fracOfDigits fp))

example : parseFloat "-1" = JsNum.num (-1) := by
  simp +decide [parseFloat, takeDigits, natOfDigits, fracOfDigits]

example : parseFloat "abc" = JsNum.nan := by
  simp +decide [parseFloat, takeDigits]

/-- The stablecoin list of `server.js` line 34. -/
def STABLECOINS : List String := ["USDT", "USDC", "BUSD", "DAI"]

/-- The standard token list of `server.js` line 35. -/
def STANDARD_TOKENS : List String := ["BTC", "ETH", "BNB", "SOL"]

/-- The symbol-to-CoinGecko-id table of `server.js` lines 38-43
(`Object.entries` iterates it in insertion order). -/
def COINGECKO_IDS : List (String × String) :=
  [("BTC", "bitcoin"), ("ETH", "ethereum"), ("BNB", "binancecoin"), ("SOL", "solana")]

/-- One entry of the parsed CoinGecko JSON body `data[id]`: the `usd` and
`usd_24h_change` fields, each possibly absent.  JSON numbers cannot be
NaN, so present fields are rationals. -/
structure CoinGeckoEntry where
  usd : Option Rat
  usd24hChange : Option Rat
deriving DecidableEq, Repr

/-- The loop body of `fetchCoinGeckoPrices` (lines 69-78): for the pair
`(symbol, id)`, if `data[id]` exists and `data[id].usd > 0`, write
`prices[symbol]` with the normalized record (`usd_24h_change || 0`
defaults an absent or zero change to 0); otherwise leave `prices`
unchanged. -/
def coinGeckoStep (data : List (String × CoinGeckoEntry)) (now : Nat)
    (prices : Snapshot) (p : String × String) : Snapshot :=
  match data.lookup p.2 with
  | some e =>
    match e.usd with
    | some q =>
      if 0 < q then
        objSet prices p.1
          { price := JsNum.num q, change24h := JsNum.num (e.usd24hChange.getD 0),
            source := "coingecko", updatedAt := now }
      else prices
    | none => prices
  | none => prices

/-- `fetchCoinGeckoPrices` (lines 49-87).  The network interaction is
abstracted to its parsed outcome: `none` for a non-ok status, timeout or
any thrown error (all are caught and produce `{}`), `some data` for a
successfully parsed JSON body keyed by CoinGecko id.  `now` models the
`Date.now()` read stamped on each produced record. -/
def fetchCoinGeckoPrices (resp : Option (List (String × CoinGeckoEntry)))
    (now : Nat) : Snapshot :=
  match resp with
  | none => []
  | some data => COINGECKO_IDS.foldl (coinGeckoStep data now) []

/-- The `data.pair` object of the parsed DexScreener JSON body: the
`priceUsd` string and the `priceChange.h24` value (numeric payloads are
represented by their decimal string), each possibly absent. -/
structure DexPair where
  priceUsd : Option String
  priceChangeH24 : Option String
deriving DecidableEq, Repr

/-- `fetchOrbePrice` (lines 93-132).  The outer `Option` models the
network outcome (`none` = non-ok status, timeout or thrown error, all
caught and returning `null`); the inner `Option DexPair` models the
presence of `data.pair`.  The JS guard is truthiness of `data.pair` and of
the raw `data.pair.priceUsd` string (non-empty); when it passes, the
record's price is `parseFloat(priceUsd)` and its change is
`parseFloat(priceChange?.h24 || 0)` — with no validation of the parsed
values. -/
def fetchOrbePrice (resp : Option (Option DexPair)) (now : Nat) :
    Option Snapshot :=
  match resp with
  | none => none
  | some none => none
  | some (some pair) =>
    match pair.priceUsd with
    | none => none
    | some s =>
      if s = "" then none
      else
        some [("ORBE",
          { price := parseFloat s,
            change24h :=
              match pair.priceChangeH24 with
              | some h => if h = "" then JsNum.num 0 else parseFloat h
              | none => JsNum.num 0,
            source := "dexscreener", updatedAt := now })]

/-- The process-wide cache object `priceCache` of `server.js` lines 27-31
(`lastUpdate : Option Nat` models `number | null`). -/
structure PriceCache where
  data : Snapshot
  lastUpdate : Option Nat
  isUpdating : Bool
deriving DecidableEq, Repr

/-- The initial cache state (lines 27-31): empty data, null `lastUpdate`,
not updating. -/
def initialPriceCache : PriceCache :=
  { data := [], lastUpdate := none, isUpdating := false }

/-- `updatePriceCache` (lines 138-188) as a state transition.  Arguments:
the current cache, the two upstream responses (consumed by the two
adapters exactly as in `Promise.all([fetchCoinGeckoPrices(),
fetchOrbePrice()])`), a flag `threw` modelling an exception raised inside
the `try` block before any cache mutation (the only awaited, fallible
step is the `Promise.all`; both assignments to `priceCache` come after
it), and the `Date.now()` reads: `tStable` for the stablecoin records,
`tAdapters` for the adapters' records, `tEnd` for `lastUpdate`.

Paths mirror the source: the in-progress guard returns the state
unchanged; a thrown body reaches only the `finally` (clearing
`isUpdating`); the normal path builds `newData` from stablecoins, merges
the CoinGecko result then the ORBE result via `Object.assign`, assigns
`data` and `lastUpdate`, and the `finally` clears `isUpdating`. -/
def updatePriceCache (c : PriceCache)
    (cgResp : Option (List (String × CoinGeckoEntry)))
    (dexResp : Option (Option DexPair)) (threw : Bool)
    (tStable tAdapters tEnd : Nat) : PriceCache :=
  if c.isUpdating then c
  else if threw then { c with isUpdating := false }
  else
    let newData : Snapshot := STABLECOINS.foldl
      (fun d token => objSet d token
        { price := JsNum.num 1, change24h := JsNum.num 0,
          source := "fixed", updatedAt := tStable }) []
    let coinGeckoData := fetchCoinGeckoPrices cgResp tAdapters
    let orbeData := fetchOrbePrice dexResp tAdapters
    let merged := objAssign newData coinGeckoData
    let merged2 :=
      match orbeData with
      | some o => objAssign merged o
      | none => merged
    { data := merged2, lastUpdate := some tEnd, isUpdating := false }

/-- Models JavaScript `String.prototype.toUpperCase` for the basic latin
letters (character-wise `Char.toUpper`), used by the `:token` route. -/
def toUpperCase (s : String) : String :=
  String.mk (s.data.map Char.toUpper)

/-- The body of `GET /api/prices` (lines 223-236): the `meta` object plus
the served snapshot.  `cacheAge` follows the source's conditional
`priceCache.lastUpdate ? Date.now() - priceCache.lastUpdate : null`,
whose condition is JS truthiness of the number-or-null `lastUpdate`. -/
structure AllPricesBody where
  success : Bool
  data : Snapshot
  lastUpdate : Option Nat
  cacheAge : Option Int
  tokensCount : Nat
  isUpdating : Bool
deriving DecidableEq, Repr

/-- JS truthiness of a `number | null` value: false for `null` and for
`0`. -/
def jsTruthyNum (x : Option Nat) : Bool :=
  match x with
  | none => false
  | some t => t ≠ 0

/-- `GET /api/prices` (lines 223-236): recompute `cacheAge` from the
current `Date.now()` (`now`) and serve the snapshot with metadata. -/
def getAll (c : PriceCache) (now : Nat) : AllPricesBody :=
  { success := true,
    data := c.data,
    lastUpdate := c.lastUpdate,
    cacheAge :=
      if jsTruthyNum c.lastUpdate then some ((now : Int) - (c.lastUpdate.getD 0 : Nat))
      else none,
    tokensCount := c.data.length,
    isUpdating := c.isUpdating }

/-- Result of `GET /api/prices/:token` (lines 239-260): either the 200
body (token, record, lastUpdate, cacheAge) or the 404 body (error message
and the list of available tokens). -/
inductive TokenResult where
  | found (token : String) (data : PriceRecord) (lastUpdate : Option Nat)
      (cacheAge : Int) : TokenResult
  | notFound (error : String) (availableTokens : List String) : TokenResult
deriving DecidableEq, Repr

/-- `GET /api/prices/:token` (lines 239-260): uppercase the path
parameter, look it up in the cache, and answer 404 with the available
keys or 200 with the record.  In the found branch the source computes
`Date.now() - priceCache.lastUpdate` directly; a null `lastUpdate` would
coerce to 0, modelled by `Option.getD 0`. -/
def getOne (c : PriceCache) (tokenParam : String) (now : Nat) : TokenResult :=
  let token := toUpperCase tokenParam
  match c.data.lookup token with
  | none =>
    TokenResult.notFound ("Token " ++ token ++ " not found") (c.data.map Prod.fst)
  | some price =>
    TokenResult.found token price c.lastUpdate
      ((now : Int) - (c.lastUpdate.getD 0 : Nat))

/-- The stablecoin baseline built by lines 155-162: the four pegged
records in insertion order. -/
def fixedRecord (t : Nat) : PriceRecord :=
  { price := JsNum.num 1, change24h := JsNum.num 0, source := "fixed", updatedAt := t }

/-- The snapshot produced by the stablecoin loop alone. -/
def stableSnapshot (t : Nat) : Snapshot :=
  [("USDT", fixedRecord t), ("USDC", fixedRecord t),
   ("BUSD", fixedRecord t), ("DAI", fixedRecord t)]

/-- Every record in a snapshot has a positive rational price (the
validity invariant the spec states for `PriceRecord.price`). -/
def PosPrices (s : Snapshot) : Prop :=
  ∀ sym r, s.lookup sym = some r → ∃ q : Rat, r.price = JsNum.num q ∧ 0 < q

/-- The state invariant relating the snapshot to `lastUpdate`: a
non-empty snapshot implies a non-null `lastUpdate`. -/
def CacheInv (c : PriceCache) : Prop :=
  c.data ≠ [] → c.lastUpdate ≠ none

/- ------------------------------------------------------------------
Lemmas about the JS-object operations.
------------------------------------------------------------------ -/

theorem lookup_objSet {α : Type} (o : List (String × α)) (k k1 : String) (v : α) :
    (objSet o k v).lookup k1 = if k1 = k then some v else o.lookup k1 := by
  induction o with
  | nil =>
    by_cases h : k1 = k
    · simp [objSet, List.lookup, h]
    · have hne : (k1 == k) = false := beq_eq_false_iff_ne.mpr h
      simp [objSet, List.lookup, hne, h]
  | cons p rest ih =>
    obtain ⟨k2, v2⟩ := p
    by_cases h2 : k2 = k
    · subst h2
      by_cases h : k1 = k2
      · simp [objSet, List.lookup, h]
      · have hne : (k1 == k2) = false := beq_eq_false_iff_ne.mpr h
        simp [objSet, List.lookup, hne, h]
    · by_cases h12 : k1 = k2
      · have hk1k : ¬ k1 = k := fun he => h2 (h12.symm.trans he)
        have hbeq : (k1 == k2) = true := beq_iff_eq.mpr h12
        simp [objSet, h2, List.lookup, hbeq, hk1k]
      · have hne : (k1 == k2) = false := beq_eq_false_iff_ne.mpr h12
        by_cases h : k1 = k
        · subst h
          simp [objSet, h2, List.lookup, hne, ih]
        · simp [objSet, h2, List.lookup, hne, ih, h]

theorem lookup_objAssign_of_none {α : Type} (src : List (String × α)) (target : List (String × α))
    (k : String) (h : src.lookup k = none) :
    (objAssign target src).lookup k = target.lookup k := by
  induction src generalizing target with
  | nil => simp [objAssign]
  | cons p rest ih =>
    obtain ⟨k2, v2⟩ := p
    have hk2 : ¬ (k = k2) := by
      intro he
      subst he
      simp [List.lookup] at h
    have hrest : rest.lookup k = none := by
      have hne : (k == k2) = false := by simp [beq_iff_eq, hk2]
      simpa [List.lookup, hne] using h
    have step : objAssign target ((k2, v2) :: rest) = objAssign (objSet target k2 v2) rest := by
      simp [objAssign]
    rw [step, ih (objSet target k2 v2) hrest, lookup_objSet, if_neg hk2]

theorem lookup_eq_none_of_not_mem_keys {α : Type} (l : List (String × α)) (k : String)
    (h : k ∉ l.map Prod.fst) : l.lookup k = none := by
  induction l with
  | nil => simp [List.lookup]
  | cons p rest ih =>
    obtain ⟨k2, v2⟩ := p
    simp only [List.map_cons, List.mem_cons, not_or] at h
    have hne : (k == k2) = false := by simp [beq_iff_eq, h.1]
    simp [List.lookup, hne, ih h.2]

theorem lookup_objAssign_of_some {α : Type} (src : List (String × α)) (target : List (String × α))
    (k : String) (v : α) (hnd : (src.map Prod.fst).Nodup) (h : src.lookup k = some v) :
    (objAssign target src).lookup k = some v := by
  induction src generalizing target with
  | nil => simp [List.lookup] at h
  | cons p rest ih =>
    obtain ⟨k2, v2⟩ := p
    have step : objAssign target ((k2, v2) :: rest) = objAssign (objSet target k2 v2) rest := by
      simp [objAssign]
    rw [step]
    simp only [List.map_cons, List.nodup_cons] at hnd
    by_cases hk : k = k2
    · subst hk
      have hv : v2 = v := by simpa [List.lookup] using h
      subst hv
      have hnotin : rest.lookup k = none :=
        lookup_eq_none_of_not_mem_keys rest k hnd.1
      rw [lookup_objAssign_of_none rest _ k hnotin, lookup_objSet, if_pos rfl]
    · have hne : (k == k2) = false := by simp [beq_iff_eq, hk]
      have hrest : rest.lookup k = some v := by simpa [List.lookup, hne] using h
      exact ih (objSet target k2 v2) hnd.2 hrest

/- ------------------------------------------------------------------
Case-normalization lemmas.
------------------------------------------------------------------ -/

theorem char_toNat_ofNat_of_lt {n : Nat} (h : n < 55296) : (Char.ofNat n).toNat = n := by
  rw [Char.ofNat, dif_pos (Or.inl h)]
  rfl

theorem char_toUpper_toUpper (c : Char) : c.toUpper.toUpper = c.toUpper := by
  unfold Char.toUpper
  by_cases h : c.toNat ≥ 97 ∧ c.toNat ≤ 122
  · rw [if_pos h]
    have h1 : (Char.ofNat (c.toNat - 32)).toNat = c.toNat - 32 :=
      char_toNat_ofNat_of_lt (by omega)
    rw [if_neg]
    rw [h1]
    omega
  · rw [if_neg h, if_neg h]

theorem toUpperCase_idem (s : String) : toUpperCase (toUpperCase s) = toUpperCase s := by
  unfold toUpperCase
  congr 1
  simp only [List.map_map]
  exact List.map_congr_left (fun c _ => char_toUpper_toUpper c)

/- ------------------------------------------------------------------
Shape and evaluation lemmas for the providers and the refresher.
------------------------------------------------------------------ -/

theorem fetchOrbePrice_shape (resp : Option (Option DexPair)) (now : Nat) (o : Snapshot)
    (h : fetchOrbePrice resp now = some o) : ∃ r : PriceRecord, o = [("ORBE", r)] := by
  match resp with
  | none => simp [fetchOrbePrice] at h
  | some none => simp [fetchOrbePrice] at h
  | some (some pair) =>
    match hu : pair.priceUsd with
    | none => simp [fetchOrbePrice, hu] at h
    | some s =>
      by_cases hs : s = ""
      · simp [fetchOrbePrice, hu, hs] at h
      · simp only [fetchOrbePrice, hu, if_neg hs, Option.some.injEq] at h
        exact ⟨_, h.symm⟩

theorem stable_fold_eval (t : Nat) :
    STABLECOINS.foldl (fun d token => objSet d token
      { price := JsNum.num 1, change24h := JsNum.num 0,
        source := "fixed", updatedAt := t }) [] = stableSnapshot t := by
  simp +decide [STABLECOINS, stableSnapshot, objSet, fixedRecord]

theorem updatePriceCache_normal (c : PriceCache)
    (cg : Option (List (String × CoinGeckoEntry))) (dex : Option (Option DexPair))
    (t1 t2 t3 : Nat) (h : c.isUpdating = false) :
    updatePriceCache c cg dex false t1 t2 t3 =
      { data :=
          match fetchOrbePrice dex t2 with
          | some o => objAssign (objAssign (stableSnapshot t1) (fetchCoinGeckoPrices cg t2)) o
          | none => objAssign (stableSnapshot t1) (fetchCoinGeckoPrices cg t2),
        lastUpdate := some t3, isUpdating := false } := by
  rw [updatePriceCache]
  rw [if_neg (by simp [h]), if_neg (by simp)]
  rw [stable_fold_eval]

theorem posPrices_objSet {s : Snapshot} {k : String} {r : PriceRecord}
    (hs : PosPrices s) (hr : ∃ q : Rat, r.price = JsNum.num q ∧ 0 < q) :
    PosPrices (objSet s k r) := by
  intro sym r2 h
  rw [lookup_objSet] at h
  by_cases he : sym = k
  · rw [if_pos he] at h
    cases h
    exact hr
  · rw [if_neg he] at h
    exact hs sym r2 h

theorem posPrices_coinGeckoStep (data : List (String × CoinGeckoEntry)) (now : Nat)
    {s : Snapshot} (hs : PosPrices s) (p : String × String) :
    PosPrices (coinGeckoStep data now s p) := by
  unfold coinGeckoStep
  split
  · split
    · split
      · exact posPrices_objSet hs ⟨_, rfl, by assumption⟩
      · exact hs
    · exact hs
  · exact hs

theorem posPrices_foldl (l : List (String × String)) (data : List (String × CoinGeckoEntry))
    (now : Nat) (acc : Snapshot) (hacc : PosPrices acc) :
    PosPrices (l.foldl (coinGeckoStep data now) acc) := by
  induction l generalizing acc with
  | nil => exact hacc
  | cons p rest ih =>
    exact ih _ (posPrices_coinGeckoStep data now hacc p)

theorem fetchCoinGeckoPrices_pos (resp : Option (List (String × CoinGeckoEntry))) (now : Nat) :
    PosPrices (fetchCoinGeckoPrices resp now) := by
  cases resp with
  | none =>
    intro sym r h
    simp [fetchCoinGeckoPrices, List.lookup] at h
  | some data =>
    exact posPrices_foldl COINGECKO_IDS data now [] (fun sym r h => by simp [List.lookup] at h)

/- ------------------------------------------------------------------
Claim theorems.
------------------------------------------------------------------ -/

/-- C2: a refresh started while `isUpdating` is true hits the guard of
lines 139-142 and returns immediately: the whole cache state — in
particular `data` and `lastUpdate` — is left unchanged. -/
theorem updatePriceCache_noop_when_updating (c : PriceCache)
    (cg : Option (List (String × CoinGeckoEntry))) (dex : Option (Option DexPair))
    (threw : Bool) (t1 t2 t3 : Nat) (h : c.isUpdating = true) :
    updatePriceCache c cg dex threw t1 t2 t3 = c := by
  rw [updatePriceCache, if_pos (by simp [h])]

theorem updatePriceCache_noop_when_updating_witness :
    updatePriceCache
        { data := [], lastUpdate := some 4, isUpdating := true } none none false 1 2 3
      = { data := [], lastUpdate := some 4, isUpdating := true } :=
  updatePriceCache_noop_when_updating _ none none false 1 2 3 rfl

/-- C3: every execution of `updatePriceCache` that passes the guard ends
with `isUpdating = false`, whether the body throws (the `finally` of line
185-187 still runs) or completes normally. -/
theorem updatePriceCache_clears_isUpdating (c : PriceCache)
    (cg : Option (List (String × CoinGeckoEntry))) (dex : Option (Option DexPair))
    (threw : Bool) (t1 t2 t3 : Nat) (h : c.isUpdating = false) :
    (updatePriceCache c cg dex threw t1 t2 t3).isUpdating = false := by
  cases threw <;> simp [updatePriceCache, h]

theorem updatePriceCache_clears_isUpdating_witness :
    (updatePriceCache
        { data := [], lastUpdate := none, isUpdating := false } none none true 1 2 3).isUpdating
      = false :=
  updatePriceCache_clears_isUpdating _ none none true 1 2 3 rfl

/-- C4: the merge order of lines 165-172 is fixed — stablecoins, then the
CoinGecko result, then the ORBE result — so any symbol present in the
single-pair adapter's result ends up in the new snapshot with the
single-pair adapter's value, whatever the batch adapter reported for it. -/
theorem merge_single_pair_adapter_wins (c : PriceCache)
    (cg : Option (List (String × CoinGeckoEntry))) (dex : Option (Option DexPair))
    (t1 t2 t3 : Nat) (o : Snapshot) (sym : String) (v : PriceRecord)
    (h : c.isUpdating = false)
    (ho : fetchOrbePrice dex t2 = some o)
    (hv : o.lookup sym = some v) :
    (updatePriceCache c cg dex false t1 t2 t3).data.lookup sym = some v := by
  rw [updatePriceCache_normal c cg dex t1 t2 t3 h]
  obtain ⟨r, rfl⟩ := fetchOrbePrice_shape dex t2 o ho
  rw [ho]
  exact lookup_objAssign_of_some _ _ sym v (by simp) hv

theorem merge_single_pair_adapter_wins_witness :
    fetchOrbePrice (some (some { priceUsd := some "2", priceChangeH24 := none })) 2 =
      some [("ORBE",
        { price := parseFloat "2", change24h := JsNum.num 0,
          source := "dexscreener", updatedAt := 2 })] ∧
    (updatePriceCache initialPriceCache
        (some [("bitcoin", { usd := some 50000, usd24hChange := some 5 })])
        (some (some { priceUsd := some "2", priceChangeH24 := none })) false 1 2 3).data.lookup
        "ORBE" =
      some { price := parseFloat "2", change24h := JsNum.num 0,
             source := "dexscreener", updatedAt := 2 } := by
  refine ⟨by simp +decide [fetchOrbePrice], ?_⟩
  exact merge_single_pair_adapter_wins initialPriceCache
    (some [("bitcoin", { usd := some 50000, usd24hChange := some 5 })])
    (some (some { priceUsd := some "2", priceChangeH24 := none })) 1 2 3
    [("ORBE", { price := parseFloat "2", change24h := JsNum.num 0,
                source := "dexscreener", updatedAt := 2 })]
    "ORBE" _ rfl (by simp +decide [fetchOrbePrice]) (by simp [List.lookup])

/-- C5: when both network adapters contribute an empty result, the
completed refresh still replaces the snapshot with exactly the four
stablecoins — each with price 1.0, change 0, source "fixed" — and still
sets `lastUpdate` to the completion timestamp; the transition is total,
so no error propagates. -/
theorem refresh_both_adapters_fail (c : PriceCache)
    (cg : Option (List (String × CoinGeckoEntry))) (dex : Option (Option DexPair))
    (t1 t2 t3 : Nat) (h : c.isUpdating = false)
    (hcg : fetchCoinGeckoPrices cg t2 = [])
    (hdex : fetchOrbePrice dex t2 = none) :
    updatePriceCache c cg dex false t1 t2 t3 =
      { data :=
          [("USDT", { price := JsNum.num 1, change24h := JsNum.num 0,
                      source := "fixed", updatedAt := t1 }),
           ("USDC", { price := JsNum.num 1, change24h := JsNum.num 0,
                      source := "fixed", updatedAt := t1 }),
           ("BUSD", { price := JsNum.num 1, change24h := JsNum.num 0,
                      source := "fixed", updatedAt := t1 }),
           ("DAI", { price := JsNum.num 1, change24h := JsNum.num 0,
                     source := "fixed", updatedAt := t1 })],
        lastUpdate := some t3, isUpdating := false } := by
  rw [updatePriceCache_normal c cg dex t1 t2 t3 h, hdex, hcg]
  rfl

theorem refresh_both_adapters_fail_witness :
    updatePriceCache initialPriceCache none none false 5 6 7 =
      { data :=
          [("USDT", { price := JsNum.num 1, change24h := JsNum.num 0,
                      source := "fixed", updatedAt := 5 }),
           ("USDC", { price := JsNum.num 1, change24h := JsNum.num 0,
                      source := "fixed", updatedAt := 5 }),
           ("BUSD", { price := JsNum.num 1, change24h := JsNum.num 0,
                      source := "fixed", updatedAt := 5 }),
           ("DAI", { price := JsNum.num 1, change24h := JsNum.num 0,
                     source := "fixed", updatedAt := 5 })],
        lastUpdate := some 7, isUpdating := false } :=
  refresh_both_adapters_fail initialPriceCache none none 5 6 7 rfl rfl rfl

/-- C6: a completed refresh replaces the snapshot wholesale: whatever the
previous snapshot contained, if the batch adapter contributes nothing and
the single-pair adapter succeeds, the new snapshot is exactly the four
stablecoins followed by the single-pair result (so only
USDT/USDC/BUSD/DAI/ORBE), and the standard tokens BTC/ETH/BNB/SOL are
absent; the transition is total, so no error is thrown. -/
theorem refresh_no_carry_over (c : PriceCache)
    (cg : Option (List (String × CoinGeckoEntry))) (dex : Option (Option DexPair))
    (t1 t2 t3 : Nat) (o : Snapshot) (h : c.isUpdating = false)
    (hcg : fetchCoinGeckoPrices cg t2 = [])
    (ho : fetchOrbePrice dex t2 = some o) :
    (updatePriceCache c cg dex false t1 t2 t3).data = stableSnapshot t1 ++ o ∧
    (updatePriceCache c cg dex false t1 t2 t3).data.map Prod.fst =
      STABLECOINS ++ ["ORBE"] ∧
    ∀ tok, tok ∈ STANDARD_TOKENS →
      (updatePriceCache c cg dex false t1 t2 t3).data.lookup tok = none := by
  obtain ⟨r, rfl⟩ := fetchOrbePrice_shape dex t2 o ho
  rw [updatePriceCache_normal c cg dex t1 t2 t3 h, ho, hcg]
  refine ⟨?_, ?_, ?_⟩
  · simp +decide [objAssign, objSet, stableSnapshot]
  · simp +decide [objAssign, objSet, stableSnapshot, STABLECOINS]
  · intro tok htok
    have : tok = "BTC" ∨ tok = "ETH" ∨ tok = "BNB" ∨ tok = "SOL" := by
      simpa [STANDARD_TOKENS] using htok
    rcases this with rfl | rfl | rfl | rfl <;>
      simp +decide [objAssign, objSet, stableSnapshot, List.lookup]

/-- C7: the single-symbol lookup of lines 239-241 is case-insensitive:
the route uppercases the path parameter before the lookup, and
uppercasing is idempotent, so `getOne` on any string and on its uppercased
form return identical results. -/
theorem getOne_case_insensitive (c : PriceCache) (s : String) (now : Nat) :
    getOne c s now = getOne c (toUpperCase s) now := by
  unfold getOne
  rw [toUpperCase_idem]

/-- C8: for a symbol absent from the snapshot, `getOne` (lines 243-249)
returns the structured not-found result, whose available-token list is
exactly the key list of the current snapshot. -/
theorem getOne_unknown_token (c : PriceCache) (s : String) (now : Nat)
    (h : c.data.lookup (toUpperCase s) = none) :
    getOne c s now =
      TokenResult.notFound ("Token " ++ toUpperCase s ++ " not found")
        (c.data.map Prod.fst) := by
  simp only [getOne]
  rw [h]

theorem getOne_unknown_token_witness :
    getOne { data := [("USDT", fixedRecord 1)], lastUpdate := some 3, isUpdating := false }
        "doge" 9 =
      TokenResult.notFound ("Token " ++ toUpperCase "doge" ++ " not found") ["USDT"] :=
  getOne_unknown_token
    { data := [("USDT", fixedRecord 1)], lastUpdate := some 3, isUpdating := false }
    "doge" 9 (by decide)

/-- C1 counterexample: a DexScreener payload whose `priceUsd` is the
truthy string "-1" parses to the negative price -1, yet `fetchOrbePrice`
still includes the ORBE entry — so a symbol can be included although its
parsed price is not a valid positive number. -/
theorem fetchOrbePrice_includes_nonpositive :
    parseFloat "-1" = JsNum.num (-1) ∧ ¬ (0 : Rat) < -1 ∧
    fetchOrbePrice (some (some { priceUsd := some "-1", priceChangeH24 := none })) 7 =
      some [("ORBE", { price := JsNum.num (-1), change24h := JsNum.num 0,
                       source := "dexscreener", updatedAt := 7 })] := by
  have hp : parseFloat "-1" = JsNum.num (-1) := by
    simp +decide [parseFloat, takeDigits, natOfDigits, fracOfDigits]
  refine ⟨hp, by norm_num, ?_⟩
  simp only [fetchOrbePrice]
  rw [if_neg (by decide)]
  rw [hp]

/-- C1 (amended): the batch adapter includes a symbol only when the
provider's `usd` value is a positive number, but the single-pair adapter
includes ORBE whenever `data.pair` is present with a truthy (non-empty)
`priceUsd` string, storing `parseFloat(priceUsd)` without validating it —
and contributes nothing exactly when the pair or a truthy `priceUsd` is
missing. -/
theorem adapter_price_validation (cg : Option (List (String × CoinGeckoEntry)))
    (now : Nat) (pair : DexPair) (s : String) :
    (∀ sym r, (fetchCoinGeckoPrices cg now).lookup sym = some r →
      ∃ q : Rat, r.price = JsNum.num q ∧ 0 < q) ∧
    (pair.priceUsd = some s → s ≠ "" →
      fetchOrbePrice (some (some pair)) now =
        some [("ORBE",
          { price := parseFloat s,
            change24h :=
              match pair.priceChangeH24 with
              | some h => if h = "" then JsNum.num 0 else parseFloat h
              | none => JsNum.num 0,
            source := "dexscreener", updatedAt := now })]) ∧
    ((pair.priceUsd = some "" ∨ pair.priceUsd = none) →
      fetchOrbePrice (some (some pair)) now = none) := by
  refine ⟨fetchCoinGeckoPrices_pos cg now, ?_, ?_⟩
  · intro hu hs
    simp only [fetchOrbePrice, hu]
    rw [if_neg hs]
  · intro hu
    rcases hu with hu | hu <;> simp [fetchOrbePrice, hu]

theorem adapter_price_validation_witness :
    (∃ q : Rat,
      (PriceRecord.mk (JsNum.num 50000) (JsNum.num 5) "coingecko" 2).price = JsNum.num q ∧
        0 < q) ∧
    fetchOrbePrice (some (some { priceUsd := some "-1", priceChangeH24 := none })) 2 =
      some [("ORBE", { price := parseFloat "-1", change24h := JsNum.num 0,
                       source := "dexscreener", updatedAt := 2 })] ∧
    fetchOrbePrice (some (some { priceUsd := some "", priceChangeH24 := none })) 2 = none := by
  have hthm := adapter_price_validation
    (some [("bitcoin", { usd := some 50000, usd24hChange := some 5 })]) 2
    { priceUsd := some "-1", priceChangeH24 := none } "-1"
  have hthm2 := adapter_price_validation
    (some [("bitcoin", { usd := some 50000, usd24hChange := some 5 })]) 2
    { priceUsd := some "", priceChangeH24 := none } ""
  refine ⟨?_, ?_, ?_⟩
  · exact hthm.1 "BTC" (PriceRecord.mk (JsNum.num 50000) (JsNum.num 5) "coingecko" 2)
      (by simp +decide [fetchCoinGeckoPrices, COINGECKO_IDS, coinGeckoStep, objSet, List.lookup])
  · exact hthm.2.1 rfl (by decide)
  · exact hthm2.2.2 (Or.inl rfl)

/-- C9 counterexample: for the cache state whose `lastUpdate` is the
(falsy) timestamp 0, a refresh has completed, yet `getAll` reports
`cacheAge` as absent instead of `now - lastUpdate`: line 224 tests JS
truthiness of `lastUpdate`, and 0 is falsy. -/
theorem getAll_cacheAge_zero_timestamp :
    ({ data := [("USDT", fixedRecord 0)], lastUpdate := some 0,
       isUpdating := false } : PriceCache).lastUpdate = some 0 ∧
    (getAll { data := [("USDT", fixedRecord 0)], lastUpdate := some 0,
              isUpdating := false } 5).cacheAge = none ∧
    (none : Option Int) ≠ some ((5 : Int) - (0 : Int)) := by
  refine ⟨rfl, ?_, by decide⟩
  simp [getAll, jsTruthyNum]

/-- C9 (amended): `getAll` recomputes `cacheAge` from the current clock on
every call: it reports `now - lastUpdate` whenever `lastUpdate` is a
truthy (nonzero) timestamp, and reports it as absent when `lastUpdate` is
null — and also, because line 224 tests JS truthiness, when `lastUpdate`
is the timestamp 0. -/
theorem getAll_cacheAge_spec (c : PriceCache) (now : Nat) :
    (∀ t : Nat, c.lastUpdate = some t → t ≠ 0 →
      (getAll c now).cacheAge = some ((now : Int) - (t : Int))) ∧
    (c.lastUpdate = none → (getAll c now).cacheAge = none) ∧
    (c.lastUpdate = some 0 → (getAll c now).cacheAge = none) := by
  refine ⟨?_, ?_, ?_⟩
  · intro t ht hz
    simp [getAll, jsTruthyNum, ht, hz]
  · intro ht
    simp [getAll, jsTruthyNum, ht]
  · intro ht
    simp [getAll, jsTruthyNum, ht]

theorem getAll_cacheAge_spec_witness :
    (getAll { data := [("USDT", fixedRecord 1)], lastUpdate := some 3,
              isUpdating := false } 9).cacheAge = some ((9 : Int) - (3 : Int)) ∧
    (getAll initialPriceCache 9).cacheAge = none :=
  ⟨(getAll_cacheAge_spec
      { data := [("USDT", fixedRecord 1)], lastUpdate := some 3, isUpdating := false } 9).1
      3 rfl (by decide),
   (getAll_cacheAge_spec initialPriceCache 9).2.1 rfl⟩

/-- C10: whenever the snapshot is non-empty, `lastUpdate` is non-null:
the invariant holds initially (both empty/null), is preserved by every
`updatePriceCache` transition (every path that assigns `data` also
assigns `lastUpdate`), and therefore the found branch of `getOne` — which
subtracts `lastUpdate` from `Date.now()` with no null guard — always
carries a non-null `lastUpdate`. -/
theorem cache_lastUpdate_invariant :
    CacheInv initialPriceCache ∧
    (∀ c cg dex threw t1 t2 t3, CacheInv c →
      CacheInv (updatePriceCache c cg dex threw t1 t2 t3)) ∧
    (∀ c s now token d lu age, CacheInv c →
      getOne c s now = TokenResult.found token d lu age → lu ≠ none) := by
  refine ⟨?_, ?_, ?_⟩
  · intro hd
    exact absurd rfl hd
  · intro c cg dex threw t1 t2 t3 hInv
    by_cases hb : c.isUpdating
    · rw [updatePriceCache, if_pos (by simp [hb])]
      exact hInv
    · cases threw with
      | true =>
        rw [updatePriceCache, if_neg (by simp [hb]), if_pos rfl]
        intro hd
        exact hInv hd
      | false =>
        rw [updatePriceCache_normal c cg dex t1 t2 t3 (by simpa using hb)]
        intro _
        exact Option.some_ne_none t3
  · intro c s now token d lu age hInv heq
    simp only [getOne] at heq
    split at heq
    · exact absurd heq (by simp)
    · next price hp =>
        injection heq with h1 h2 h3 h4
        have hne : c.data ≠ [] := by
          intro hnil
          rw [hnil] at hp
          simp [List.lookup] at hp
        exact h3 ▸ hInv hne

theorem cache_lastUpdate_invariant_witness :
    CacheInv (updatePriceCache initialPriceCache none none false 1 2 3) ∧
    ((some 3 : Option Nat) ≠ none) :=
  ⟨cache_lastUpdate_invariant.2.1 initialPriceCache none none false 1 2 3
      cache_lastUpdate_invariant.1,
   cache_lastUpdate_invariant.2.2
      { data := [("USDT", fixedRecord 1)], lastUpdate := some 3, isUpdating := false }
      "usdt" 9 "USDT" (fixedRecord 1) (some 3) 6
      (fun _ => by decide)
      (by decide)⟩

theorem refresh_no_carry_over_witness :
    (updatePriceCache
        { data := [("BTC", fixedRecord 9)], lastUpdate := some 1, isUpdating := false }
        none (some (some { priceUsd := some "2", priceChangeH24 := none }))
        false 4 5 6).data =
      stableSnapshot 4 ++
        [("ORBE", { price := parseFloat "2", change24h := JsNum.num 0,
                    source := "dexscreener", updatedAt := 5 })] ∧
    (updatePriceCache
        { data := [("BTC", fixedRecord 9)], lastUpdate := some 1, isUpdating := false }
        none (some (some { priceUsd := some "2", priceChangeH24 := none }))
        false 4 5 6).data.map Prod.fst = STABLECOINS ++ ["ORBE"] ∧
    (updatePriceCache
        { data := [("BTC", fixedRecord 9)], lastUpdate := some 1, isUpdating := false }
        none (some (some { priceUsd := some "2", priceChangeH24 := none }))
        false 4 5 6).data.lookup "BTC" = none := by
  have h := refresh_no_carry_over
    { data := [("BTC", fixedRecord 9)], lastUpdate := some 1, isUpdating := false }
    none (some (some { priceUsd := some "2", priceChangeH24 := none })) 4 5 6
    [("ORBE", { price := parseFloat "2", change24h := JsNum.num 0,
                source := "dexscreener", updatedAt := 5 })]
    rfl rfl (by simp +decide [fetchOrbePrice])
  exact ⟨h.1, h.2.1, h.2.2 "BTC" (by decide)⟩
